import Mathlib

/-!
Verification of the esphome-client wire framing and client read path.

Byte buffers are modelled as `List Nat` (each element a `u8` value), 16-bit
machine integers as `Nat` with explicit reduction modulo `2 ^ 16` where the
source relies on `u16` wrap-around, and fallible Rust functions as `Except`.
Buffer mutation through `&mut Vec<u8>` is modelled by returning the buffer
as it is left after the call.
-/

namespace EsphomeClient

/-- Model of `ConnectionError` (error.rs). IO error sources are represented by
their message strings. -/
inductive ConnectionError
  | tcpConnect (address : String) (source : String)
  | noiseHandshake (reason : String)
deriving DecidableEq, Repr

/-- Model of `StreamError` (error.rs). -/
inductive StreamError
  | invalidFrame (reason : String)
  | frameTooLarge (size : Nat) (max_size : Nat)
  | read (source : String)
  | write (source : String)
deriving DecidableEq, Repr

/-- Model of `ProtocolError` (error.rs); the protobuf parse and encode sources
are represented by message strings. -/
inductive ProtocolError
  | protobufParse (source : String)
  | protobufEncode (source : String)
  | unexpectedPlain
  | unexpectedEncryption
  | validationFailed (reason : String)
deriving DecidableEq, Repr

/-- Model of `NoiseError` (error.rs). -/
inductive NoiseError
  | handshake (reason : String)
  | transport (reason : String)
  | invalidKey (reason : String)
  | cryptoOperation (reason : String)
deriving DecidableEq, Repr

/-- Model of `ClientError` (error.rs). -/
inductive ClientError
  | connection (e : ConnectionError)
  | authentication (reason : String)
  | stream (e : StreamError)
  | protocol (e : ProtocolError)
  | timeout (timeout_ms : Nat)
  | configuration (message : String)
  | protocolMismatch (expected : String) (actual : String)
  | invalidInternalState (reason : String)
deriving DecidableEq, Repr

/-- The plaintext frame preamble `0x00` (plain.rs line 11). -/
def PLAIN_PREAMBLE : Nat := 0x00

/-- The Noise frame preamble `0x01` (noise.rs line 15). -/
def NOISE_PREAMBLE : Nat := 0x01

/-- Model of `u16::to_be_bytes`: the big-endian byte pair of a 16-bit value. -/
def u16_to_be_bytes (n : Nat) : List Nat := [(n >>> 8) % 256, n % 256]

/-- Model of `u16::from_be_bytes`: the value of a big-endian pair of `u8`s. -/
def u16_from_be_bytes (a b : Nat) : Nat := 256 * (a % 256) + b % 256

/-- The `while` loop of `convert_to_leb128` (plain.rs lines 124-135): emit the
low 7 bits of `value`, with the continuation flag `0x80` whenever the shifted
value is still nonzero, then continue on `value >> 7`. -/
def leb128_loop (value : Nat) : List Nat :=
  if h : value = 0 then []
  else
    (if value >>> 7 ≠ 0 then (value &&& 0x7F) ||| 0x80 else value &&& 0x7F) ::
      leb128_loop (value >>> 7)
termination_by value
decreasing_by
  simp only [Nat.shiftRight_eq_div_pow]
  exact Nat.div_lt_self (Nat.pos_of_ne_zero h) (by norm_num)

/-- Model of `convert_to_leb128` (plain.rs lines 119-136); `value` is a `u16`. -/
def convert_to_leb128 (value : Nat) : List Nat :=
  if value ≤ 0x7F then [value] else leb128_loop value

/-- The `for` loop of `convert_from_leb128` (plain.rs lines 142-156): the bytes
still to visit, the absolute index of the next byte, the accumulated `result`
(a `u16`, hence the reduction modulo `2 ^ 16` on the `u16` shift) and the
accumulated `shift`. -/
def from_leb128_loop : List Nat → Nat → Nat → Nat → Option (Nat × Nat)
  | [], _, _, _ => none
  | byte :: rest, index, result, shift =>
    if byte &&& 0x80 = 0 then
      some (result ||| (((byte &&& 0x7F) <<< shift) % 65536), index + 1)
    else if shift + 7 ≥ 16 then none
    else from_leb128_loop rest (index + 1)
      (result ||| (((byte &&& 0x7F) <<< shift) % 65536)) (shift + 7)

/-- Model of `convert_from_leb128` (plain.rs lines 138-159): decode one LEB128
varint starting at `start_pos`; `some (value, index just past the varint)` on a
terminating byte, `none` on buffer exhaustion or on more than 16 bits of
accumulated shift. -/
def convert_from_leb128 (payload : List Nat) (start_pos : Nat) : Option (Nat × Nat) :=
  from_leb128_loop (payload.drop start_pos) start_pos 0 0

namespace Plain

/-- Model of the plaintext `create_frame` (plain.rs lines 45-64). -/
def create_frame (payload : List Nat) : Except ClientError (List Nat) :=
  if payload.length < 4 then
    .error (.stream (.invalidFrame "Payload must be at least 4 bytes long"))
  else
    .ok ([PLAIN_PREAMBLE]
      ++ convert_to_leb128 (u16_from_be_bytes (payload.getD 2 0) (payload.getD 3 0))
      ++ convert_to_leb128 (u16_from_be_bytes (payload.getD 0 0) (payload.getD 1 0))
      ++ payload.drop 4)

/-- Model of the plaintext `read_frame_from_buffer` (plain.rs lines 67-117):
the `decode` result paired with the buffer as the call leaves it (`drain` is
modelled by returning the remaining suffix). The `u16::try_from(frame_len)`
check runs after the drain, as in the source. -/
def read_frame_from_buffer (buffer : List Nat) :
    Except ClientError (Option (List Nat)) × List Nat :=
  if buffer.length < 3 then (.ok none, buffer)
  else if buffer.getD 0 0 = PLAIN_PREAMBLE then
    match convert_from_leb128 buffer 1 with
    | none => (.ok none, buffer)
    | some (frame_len, next_index) =>
      match convert_from_leb128 buffer next_index with
      | none => (.ok none, buffer)
      | some (type_id, next_index2) =>
        if buffer.length < next_index2 + frame_len then (.ok none, buffer)
        else if frame_len ≤ 65535 then
          (.ok (some (u16_to_be_bytes type_id ++ u16_to_be_bytes frame_len
              ++ (buffer.take (frame_len + next_index2)).drop next_index2)),
            buffer.drop (frame_len + next_index2))
        else
          (.error (.stream (.frameTooLarge frame_len 65535)),
            buffer.drop (frame_len + next_index2))
  else if buffer.getD 0 0 = NOISE_PREAMBLE then
    (.error (.protocol .unexpectedEncryption), buffer)
  else
    (.error (.stream (.invalidFrame ("Invalid preamble: " ++ toString (buffer.getD 0 0)))),
      buffer)

end Plain

/-- Outcome of one call of the Noise `read_frame_from_buffer`: the `decode`
result paired with the buffer as it is left, or `panic` when the call aborts
(the source can reach a `Vec::drain` whose range exceeds the buffer, which
panics). -/
inductive NoiseDecodeResult
  | ok (frame : Option (List Nat)) (buffer : List Nat)
  | fail (e : ClientError) (buffer : List Nat)
  | panic
deriving DecidableEq, Repr

namespace Noise

/-- Model of the Noise `read_frame_from_buffer` (noise.rs lines 227-255). The
source checks only `buffer.len() < frame_len` before `buffer.drain(..frame_len + 3)`,
so a buffer with `frame_len ≤ len < frame_len + 3` reaches the out-of-range
drain, modelled by `panic`. -/
def read_frame_from_buffer (buffer : List Nat) : NoiseDecodeResult :=
  if buffer.length < 3 then .ok none buffer
  else if buffer.getD 0 0 = NOISE_PREAMBLE then
    if buffer.length < u16_from_be_bytes (buffer.getD 1 0) (buffer.getD 2 0) then
      .ok none buffer
    else if buffer.length < u16_from_be_bytes (buffer.getD 1 0) (buffer.getD 2 0) + 3 then
      .panic
    else
      .ok (some ((buffer.take (u16_from_be_bytes (buffer.getD 1 0) (buffer.getD 2 0) + 3)).drop 3))
        (buffer.drop (u16_from_be_bytes (buffer.getD 1 0) (buffer.getD 2 0) + 3))
  else if buffer.getD 0 0 = PLAIN_PREAMBLE then
    .fail (.protocol .unexpectedPlain) buffer
  else
    .fail (.stream (.invalidFrame ("Invalid preamble: " ++ toString (buffer.getD 0 0)))) buffer

/-- Model of the PSK validation in `create_noise_client` (noise.rs lines
120-132). The base64 decode is performed by the external `base64` crate and is
represented by its result (`.error` carries the base64 error message, `.ok` the
decoded bytes); on success the function hands the validated key bytes on to the
Noise builder, modelled by returning them. -/
def create_noise_client (decoded_key : Except String (List Nat)) :
    Except NoiseError (List Nat) :=
  match decoded_key with
  | .error e => .error (.invalidKey e)
  | .ok key_bytes =>
    if key_bytes.length ≠ 32 then .error (.invalidKey "Invalid PSK length")
    else .ok key_bytes

end Noise

/-! ### Arithmetic bridges for the bitwise operations -/

theorem and_127_eq_mod (n : Nat) : n &&& 127 = n % 128 := by
  have h : (127 : Nat) = 2 ^ 7 - 1 := by norm_num
  have h' : (128 : Nat) = 2 ^ 7 := by norm_num
  rw [h, h', Nat.and_pow_two_sub_one_eq_mod]

theorem and_128_of_lt {n : Nat} (h : n < 128) : n &&& 128 = 0 := by
  apply Nat.eq_of_testBit_eq
  intro i
  rw [Nat.testBit_and, Nat.zero_testBit]
  rcases eq_or_ne i 7 with rfl | hne
  · rw [Nat.testBit_lt_two_pow (lt_of_lt_of_le h (le_of_eq (by norm_num)))]
    simp
  · have h128 : (128 : Nat) = 2 ^ 7 := by norm_num
    rw [h128, Nat.testBit_two_pow, decide_eq_false (Ne.symm hne)]
    simp

theorem or_128_eq_add {n : Nat} (h : n < 128) : n ||| 128 = n + 128 := by
  have h2 : n < 2 ^ 7 := lt_of_lt_of_le h (le_of_eq (by norm_num))
  have h3 := Nat.mul_add_lt_is_or h2 1
  have h4 : (2 : Nat) ^ 7 * 1 = 128 := by norm_num
  rw [h4] at h3
  rw [Nat.or_comm, ← h3, Nat.add_comm]

theorem and_128_of_ge {n : Nat} (h1 : 128 ≤ n) (h2 : n < 256) : n &&& 128 = 128 := by
  have hrep : n = (n - 128) ||| 128 := by
    rw [or_128_eq_add (show n - 128 < 128 by omega)]
    omega
  rw [hrep, Nat.and_distrib_right, and_128_of_lt (show n - 128 < 128 by omega)]
  decide

theorem or_mul_pow_eq_add {r x s : Nat} (h : r < 2 ^ s) : r ||| x * 2 ^ s = r + x * 2 ^ s := by
  have h3 := Nat.mul_add_lt_is_or h x
  rw [Nat.or_comm, Nat.mul_comm x (2 ^ s), ← h3, Nat.add_comm]

theorem or_mul_128_eq_add {r x : Nat} (h : r < 128) : r ||| x * 128 = r + x * 128 := by
  have h' : r < 2 ^ 7 := lt_of_lt_of_le h (le_of_eq (by norm_num))
  have h2 := @or_mul_pow_eq_add r x 7 h'
  norm_num at h2
  exact h2

theorem or_mul_16384_eq_add {r x : Nat} (h : r < 16384) : r ||| x * 16384 = r + x * 16384 := by
  have h' : r < 2 ^ 14 := lt_of_lt_of_le h (le_of_eq (by norm_num))
  have h2 := @or_mul_pow_eq_add r x 14 h'
  norm_num at h2
  exact h2

theorem shiftRight_7_eq_div (n : Nat) : n >>> 7 = n / 128 := by
  rw [Nat.shiftRight_eq_div_pow]

/-! ### LEB128 encoder characterization -/

theorem leb128_loop_one {v : Nat} (h0 : v ≠ 0) (h : v ≤ 127) : leb128_loop v = [v] := by
  rw [leb128_loop, dif_neg h0, shiftRight_7_eq_div]
  have hz : v / 128 = 0 := by omega
  rw [hz, if_neg (by simp), leb128_loop, dif_pos rfl, and_127_eq_mod,
    Nat.mod_eq_of_lt (by omega)]

theorem leb128_loop_two {v : Nat} (h1 : 128 ≤ v) (h2 : v < 16384) :
    leb128_loop v = [v % 128 + 128, v / 128] := by
  rw [leb128_loop, dif_neg (show v ≠ 0 by omega), shiftRight_7_eq_div]
  have hd0 : v / 128 ≠ 0 := by omega
  rw [if_pos hd0, and_127_eq_mod, or_128_eq_add (Nat.mod_lt _ (by norm_num)),
    leb128_loop_one hd0 (by omega)]

theorem leb128_loop_three {v : Nat} (h1 : 16384 ≤ v) (h2 : v < 65536) :
    leb128_loop v = [v % 128 + 128, v / 128 % 128 + 128, v / 16384] := by
  rw [leb128_loop, dif_neg (show v ≠ 0 by omega), shiftRight_7_eq_div]
  have hd0 : v / 128 ≠ 0 := by omega
  rw [if_pos hd0, and_127_eq_mod, or_128_eq_add (Nat.mod_lt _ (by norm_num)),
    leb128_loop_two (by omega) (by omega)]
  have : v / 128 / 128 = v / 16384 := by omega
  rw [this]

theorem convert_to_leb128_one {v : Nat} (h : v ≤ 127) : convert_to_leb128 v = [v] := by
  unfold convert_to_leb128
  rw [if_pos h]

theorem convert_to_leb128_two {v : Nat} (h1 : 128 ≤ v) (h2 : v < 16384) :
    convert_to_leb128 v = [v % 128 + 128, v / 128] := by
  unfold convert_to_leb128
  rw [if_neg (by omega), leb128_loop_two h1 h2]

theorem convert_to_leb128_three {v : Nat} (h1 : 16384 ≤ v) (h2 : v < 65536) :
    convert_to_leb128 v = [v % 128 + 128, v / 128 % 128 + 128, v / 16384] := by
  unfold convert_to_leb128
  rw [if_neg (by omega), leb128_loop_three h1 h2]

/-! ### LEB128 decoder on encoder output -/

theorem from_leb128_one {v idx : Nat} (rest : List Nat) (h : v ≤ 127) :
    from_leb128_loop (v :: rest) idx 0 0 = some (v, idx + 1) := by
  rw [from_leb128_loop, if_pos (and_128_of_lt (by omega)), and_127_eq_mod,
    Nat.shiftLeft_eq]
  norm_num
  omega

theorem from_leb128_two {v idx : Nat} (rest : List Nat) (h1 : 128 ≤ v) (h2 : v < 16384) :
    from_leb128_loop ((v % 128 + 128) :: (v / 128) :: rest) idx 0 0 = some (v, idx + 2) := by
  rw [from_leb128_loop,
    if_neg (by rw [and_128_of_ge (by omega) (by omega)]; norm_num),
    if_neg (by norm_num)]
  rw [from_leb128_loop, if_pos (and_128_of_lt (by omega)), and_127_eq_mod, and_127_eq_mod,
    Nat.shiftLeft_eq, Nat.shiftLeft_eq]
  norm_num
  have e1 : v % 128 % 65536 = v % 128 := by omega
  have e2 : v / 128 % 128 * 128 % 65536 = v / 128 * 128 := by omega
  rw [e1, e2, or_mul_128_eq_add (by omega)]
  omega

theorem from_leb128_three {v idx : Nat} (rest : List Nat) (h1 : 16384 ≤ v) (h2 : v < 65536) :
    from_leb128_loop ((v % 128 + 128) :: (v / 128 % 128 + 128) :: (v / 16384) :: rest) idx 0 0
      = some (v, idx + 3) := by
  rw [from_leb128_loop,
    if_neg (by rw [and_128_of_ge (by omega) (by omega)]; norm_num),
    if_neg (by norm_num)]
  rw [from_leb128_loop,
    if_neg (by rw [and_128_of_ge (by omega) (by omega)]; norm_num),
    if_neg (by norm_num)]
  rw [from_leb128_loop, if_pos (and_128_of_lt (by omega))]
  rw [and_127_eq_mod, and_127_eq_mod, and_127_eq_mod,
    Nat.shiftLeft_eq, Nat.shiftLeft_eq, Nat.shiftLeft_eq]
  norm_num
  have e1 : v % 128 % 65536 = v % 128 := by omega
  have e2 : v / 128 % 128 * 128 % 65536 = v / 128 % 128 * 128 := by omega
  have e3 : v / 16384 % 128 * 16384 % 65536 = v / 16384 * 16384 := by omega
  rw [e1, e2, e3, or_mul_128_eq_add (by omega)]
  have e4 : v % 128 + v / 128 % 128 * 128 = v % 16384 := by omega
  rw [e4, or_mul_16384_eq_add (by omega)]
  omega

theorem from_to_leb128 {v : Nat} (h : v < 65536) (idx : Nat) (rest : List Nat) :
    from_leb128_loop (convert_to_leb128 v ++ rest) idx 0 0
      = some (v, idx + (convert_to_leb128 v).length) := by
  rcases Nat.lt_or_ge v 128 with h1 | h1
  · rw [convert_to_leb128_one (by omega)]
    exact from_leb128_one rest (by omega)
  · rcases Nat.lt_or_ge v 16384 with h2 | h2
    · rw [convert_to_leb128_two h1 h2]
      exact from_leb128_two rest h1 h2
    · rw [convert_to_leb128_three h2 h]
      exact from_leb128_three rest h2 h

theorem convert_from_leb128_encode (pre : List Nat) {v : Nat} (h : v < 65536)
    (rest : List Nat) :
    convert_from_leb128 (pre ++ (convert_to_leb128 v ++ rest)) pre.length
      = some (v, pre.length + (convert_to_leb128 v).length) := by
  unfold convert_from_leb128
  rw [List.drop_left]
  exact from_to_leb128 h pre.length rest

/-! ### Plain frame decode on encoder output -/

theorem convert_to_leb128_length_pos (v : Nat) : 1 ≤ (convert_to_leb128 v).length := by
  unfold convert_to_leb128
  by_cases h : v ≤ 0x7F
  · rw [if_pos h]
    simp
  · rw [if_neg h, leb128_loop, dif_neg (show v ≠ 0 by omega)]
    simp

theorem take_append_middle_drop (X Y Z : List Nat) :
    ((X ++ (Y ++ Z)).take (Y.length + X.length)).drop X.length = Y := by
  rw [Nat.add_comm, List.take_append, List.take_left, List.drop_left]

theorem drop_append_middle (X Y Z : List Nat) :
    (X ++ (Y ++ Z)).drop (Y.length + X.length) = Z := by
  rw [Nat.add_comm, List.drop_append, List.drop_left]

theorem read_frame_of_encoded (tid : Nat) (body rest : List Nat) (htid : tid < 65536)
    (hlen : body.length ≤ 65535) :
    Plain.read_frame_from_buffer
        (PLAIN_PREAMBLE ::
          (convert_to_leb128 body.length ++ (convert_to_leb128 tid ++ (body ++ rest))))
      = (.ok (some (u16_to_be_bytes tid ++ u16_to_be_bytes body.length ++ body)), rest) := by
  have hlv1 := convert_to_leb128_length_pos body.length
  have hlv2 := convert_to_leb128_length_pos tid
  have hc1 : convert_from_leb128
      (PLAIN_PREAMBLE ::
        (convert_to_leb128 body.length ++ (convert_to_leb128 tid ++ (body ++ rest)))) 1
      = some (body.length, 1 + (convert_to_leb128 body.length).length) := by
    simpa using convert_from_leb128_encode [PLAIN_PREAMBLE]
      (show body.length < 65536 by omega) (convert_to_leb128 tid ++ (body ++ rest))
  have hc2 : convert_from_leb128
      (PLAIN_PREAMBLE ::
        (convert_to_leb128 body.length ++ (convert_to_leb128 tid ++ (body ++ rest))))
      (1 + (convert_to_leb128 body.length).length)
      = some (tid, 1 + (convert_to_leb128 body.length).length
          + (convert_to_leb128 tid).length) := by
    have h := convert_from_leb128_encode (PLAIN_PREAMBLE :: convert_to_leb128 body.length)
      htid (body ++ rest)
    simp only [List.cons_append, List.length_cons] at h
    rw [Nat.add_comm (convert_to_leb128 body.length).length 1] at h
    exact h
  have hlen3 : ¬((PLAIN_PREAMBLE ::
      (convert_to_leb128 body.length ++ (convert_to_leb128 tid ++ (body ++ rest)))).length
        < 3) := by
    simp only [List.length_cons, List.length_append]
    omega
  have hcomplete : ¬((PLAIN_PREAMBLE ::
      (convert_to_leb128 body.length ++ (convert_to_leb128 tid ++ (body ++ rest)))).length
        < 1 + (convert_to_leb128 body.length).length + (convert_to_leb128 tid).length
          + body.length) := by
    simp only [List.length_cons, List.length_append]
    omega
  have htd1 := take_append_middle_drop
    ((PLAIN_PREAMBLE :: convert_to_leb128 body.length) ++ convert_to_leb128 tid) body rest
  have htd2 := drop_append_middle
    ((PLAIN_PREAMBLE :: convert_to_leb128 body.length) ++ convert_to_leb128 tid) body rest
  have hx : ((PLAIN_PREAMBLE :: convert_to_leb128 body.length)
      ++ convert_to_leb128 tid).length
      = 1 + (convert_to_leb128 body.length).length + (convert_to_leb128 tid).length := by
    simp only [List.length_append, List.length_cons]
    omega
  rw [hx] at htd1 htd2
  simp only [List.cons_append, List.append_assoc] at htd1 htd2
  simp only [Plain.read_frame_from_buffer, List.getD_cons_zero, hc1, hc2, if_neg hlen3,
    if_neg hcomplete, if_pos hlen, eq_self_iff_true, if_true, htd1, htd2]

/-! ### Overlong varints and the frame-too-large branch -/

theorem from_leb128_loop_overlong {b1 b2 b3 : Nat} (rest : List Nat) (idx r : Nat)
    (h1 : 128 ≤ b1) (h1' : b1 < 256) (h2 : 128 ≤ b2) (h2' : b2 < 256)
    (h3 : 128 ≤ b3) (h3' : b3 < 256) :
    from_leb128_loop (b1 :: b2 :: b3 :: rest) idx r 0 = none := by
  rw [from_leb128_loop, if_neg (by rw [and_128_of_ge h1 h1']; norm_num),
    if_neg (by norm_num)]
  rw [from_leb128_loop, if_neg (by rw [and_128_of_ge h2 h2']; norm_num),
    if_neg (by norm_num)]
  rw [from_leb128_loop, if_neg (by rw [and_128_of_ge h3 h3']; norm_num),
    if_pos (by norm_num)]

theorem or_lt_65536 {a b : Nat} (ha : a < 65536) (hb : b < 65536) : a ||| b < 65536 := by
  have ha' : a < 2 ^ 16 := lt_of_lt_of_le ha (le_of_eq (by norm_num))
  have hb' : b < 2 ^ 16 := lt_of_lt_of_le hb (le_of_eq (by norm_num))
  exact lt_of_lt_of_le (Nat.or_lt_two_pow ha' hb') (le_of_eq (by norm_num))

theorem from_leb128_loop_bound : ∀ (bytes : List Nat) (idx r s v i : Nat), r < 65536 →
    from_leb128_loop bytes idx r s = some (v, i) → v < 65536
  | [], _, _, _, _, _, _, h => by simp [from_leb128_loop] at h
  | byte :: rest, idx, r, s, v, i, hr, h => by
    rw [from_leb128_loop] at h
    by_cases hflag : byte &&& 0x80 = 0
    · rw [if_pos hflag] at h
      simp only [Option.some.injEq, Prod.mk.injEq] at h
      obtain ⟨hv, hi⟩ := h
      rw [← hv]
      exact or_lt_65536 hr (Nat.mod_lt _ (by norm_num))
    · rw [if_neg hflag] at h
      by_cases hs : s + 7 ≥ 16
      · rw [if_pos hs] at h
        exact absurd h (by simp)
      · rw [if_neg hs] at h
        exact from_leb128_loop_bound rest (idx + 1) _ (s + 7) v i
          (or_lt_65536 hr (Nat.mod_lt _ (by norm_num))) h

theorem convert_from_leb128_bound {payload : List Nat} {start v i : Nat}
    (h : convert_from_leb128 payload start = some (v, i)) : v ≤ 65535 := by
  have := from_leb128_loop_bound (payload.drop start) start 0 0 v i (by norm_num) h
  omega

/-- Does a decode result carry the `FrameTooLarge` stream error? -/
def is_frame_too_large : Except ClientError (Option (List Nat)) → Bool
  | .error (.stream (.frameTooLarge _ _)) => true
  | _ => false

theorem read_frame_never_too_large (buffer : List Nat) :
    is_frame_too_large (Plain.read_frame_from_buffer buffer).fst = false := by
  unfold Plain.read_frame_from_buffer
  split
  · rfl
  split
  · split
    · rfl
    next frame_len next_index heq =>
      split
      · rfl
      next type_id next_index2 heq2 =>
        split
        · rfl
        · split
          · rfl
          next hle =>
            exact absurd (convert_from_leb128_bound heq) hle
  · split
    · rfl
    · rfl

/-! ### Stream reader (stream_reader.rs) -/

/-- A pluggable `StreamDecoder::decode` call: from the current buffer, the
`Result<Option<Vec<u8>>, ClientError>` together with the buffer as the call
leaves it (`decode` takes `&mut Vec<u8>`). -/
def Decoder : Type := List Nat → Except ClientError (Option (List Nat)) × List Nat

/-- Outcome of one `try_read_buf` call on a readable socket
(stream_reader.rs lines 54-64). -/
inductive ReadOutcome
  | bytes (data : List Nat)
  | wouldBlock
  | ioFail (e : String)
deriving DecidableEq, Repr

/-- Outcome of one `ready(Interest::READABLE)` wait plus, when readable, the
following `try_read_buf` (stream_reader.rs lines 48-65). -/
inductive ReadyEvent
  | ioFail (e : String)
  | notReadable
  | readable (r : ReadOutcome)
deriving DecidableEq, Repr

/-- Result of `read_next_message` run against a finite trace of socket events:
a decoded payload, an error, or still waiting when the trace is exhausted.
The buffer state and unconsumed events are carried along. -/
inductive ReadResult
  | msg (payload : List Nat) (buffer : List Nat) (rest : List ReadyEvent)
  | fail (e : ClientError) (buffer : List Nat) (rest : List ReadyEvent)
  | waiting (buffer : List Nat)
deriving Repr

/-- The readiness loop of `read_next_message` (stream_reader.rs lines 47-66):
errors from `ready` or `try_read_buf` are returned as `StreamError::Read`; a
zero-length read, `WouldBlock`, and a non-readable wake just loop; after a
successful read the decoder runs on the grown buffer and only an
`Ok(Some(_))` result leaves the loop. -/
def read_loop (decode : Decoder) (buffer : List Nat) : List ReadyEvent → ReadResult
  | [] => .waiting buffer
  | .ioFail e :: events => .fail (.stream (.read e)) buffer events
  | .notReadable :: events => read_loop decode buffer events
  | .readable (.ioFail e) :: events => .fail (.stream (.read e)) buffer events
  | .readable .wouldBlock :: events => read_loop decode buffer events
  | .readable (.bytes data) :: events =>
    if data.length < 1 then read_loop decode buffer events
    else
      match decode (buffer ++ data) with
      | (.ok (some decoded), buffer2) => .msg decoded buffer2 events
      | (_, buffer2) => read_loop decode buffer2 events

/-- Model of `StreamReader::read_next_message` (stream_reader.rs lines 42-67):
first an immediate `decode` on the current buffer (`if let Ok(Some(..))`),
then the readiness loop. -/
def read_next_message (decode : Decoder) (buffer : List Nat)
    (events : List ReadyEvent) : ReadResult :=
  match decode buffer with
  | (.ok (some decoded), buffer2) => .msg decoded buffer2 events
  | (_, buffer2) => read_loop decode buffer2 events

/-- The same decoder with every `Err` from `decode` replaced by `Ok(None)`
(same buffer effect): used to state that `read_next_message` cannot tell a
decoder error from "no frame yet". -/
def suppress_decode_errors (decode : Decoder) : Decoder :=
  fun buffer =>
    match decode buffer with
    | (.error _, buffer2) => (.ok none, buffer2)
    | other => other

/-- Did `read_next_message` return an error? -/
def ReadResult.is_fail : ReadResult → Bool
  | .fail _ _ _ => true
  | _ => false

/-- Did `read_next_message` return a socket read error (`StreamError::Read`)? -/
def ReadResult.is_socket_read_fail : ReadResult → Bool
  | .fail (.stream (.read _)) _ _ => true
  | _ => false

theorem read_loop_suppress (decode : Decoder) :
    ∀ (events : List ReadyEvent) (buffer : List Nat),
      read_loop decode buffer events = read_loop (suppress_decode_errors decode) buffer events
  | [], buffer => rfl
  | .ioFail e :: events, buffer => rfl
  | .notReadable :: events, buffer => read_loop_suppress decode events buffer
  | .readable (.ioFail e) :: events, buffer => rfl
  | .readable .wouldBlock :: events, buffer => read_loop_suppress decode events buffer
  | .readable (.bytes data) :: events, buffer => by
    rw [read_loop, read_loop]
    by_cases hlen : data.length < 1
    · rw [if_pos hlen, if_pos hlen]
      exact read_loop_suppress decode events buffer
    · rw [if_neg hlen, if_neg hlen]
      unfold suppress_decode_errors
      rcases h : decode (buffer ++ data) with ⟨res, buffer2⟩
      rcases res with e | od
      · simp only
        exact read_loop_suppress decode events buffer2
      · rcases od with _ | d
        · simp only
          exact read_loop_suppress decode events buffer2
        · simp only

theorem read_loop_fail_is_socket (decode : Decoder) :
    ∀ (events : List ReadyEvent) (buffer : List Nat),
      (read_loop decode buffer events).is_fail
        = (read_loop decode buffer events).is_socket_read_fail
  | [], buffer => rfl
  | .ioFail e :: events, buffer => rfl
  | .notReadable :: events, buffer => read_loop_fail_is_socket decode events buffer
  | .readable (.ioFail e) :: events, buffer => rfl
  | .readable .wouldBlock :: events, buffer => read_loop_fail_is_socket decode events buffer
  | .readable (.bytes data) :: events, buffer => by
    rw [read_loop]
    by_cases hlen : data.length < 1
    · rw [if_pos hlen]
      exact read_loop_fail_is_socket decode events buffer
    · rw [if_neg hlen]
      rcases h : decode (buffer ++ data) with ⟨res, buffer2⟩
      rcases res with e | od
      · simp only
        exact read_loop_fail_is_socket decode events buffer2
      · rcases od with _ | d
        · simp only
          exact read_loop_fail_is_socket decode events buffer2
        · simp only
          rfl

/-! ### Client facade (client.rs) -/

/-- Model of the `EspHomeMessage` registry variants that `try_read`
distinguishes: the ping request, the ping response it writes back, and every
other decoded message. -/
inductive EspHomeMessage
  | pingRequest
  | pingResponse
  | other (type_id : Nat) (body : List Nat)
deriving DecidableEq, Repr

/-- Is this message a `PingRequest`? -/
def EspHomeMessage.is_ping_request : EspHomeMessage → Bool
  | .pingRequest => true
  | _ => false

/-- Model of the loop of `EspHomeClient::try_read` (client.rs lines 61-79) run
against the successive messages decoded from the stream. `sent` accumulates
the messages written via `try_write` (writes are modelled as succeeding).
Returns the message handed to the caller (`none` when the trace runs out
first) together with the final sent list. -/
def try_read (handle_ping : Bool) (sent : List EspHomeMessage) :
    List EspHomeMessage → Option EspHomeMessage × List EspHomeMessage
  | [] => (none, sent)
  | message :: incoming =>
    match message with
    | .pingRequest =>
      if handle_ping then try_read handle_ping (sent ++ [.pingResponse]) incoming
      else (some .pingRequest, sent)
    | msg => (some msg, sent)

/-- Did `try_read` hand a `PingRequest` to the caller? -/
def returns_ping (r : Option EspHomeMessage × List EspHomeMessage) : Bool :=
  match r.fst with
  | some .pingRequest => true
  | _ => false

theorem try_read_ping_on :
    ∀ (incoming : List EspHomeMessage) (sent : List EspHomeMessage),
      try_read true sent incoming
        = ((incoming.dropWhile EspHomeMessage.is_ping_request).head?,
           sent ++ List.replicate
             (incoming.takeWhile EspHomeMessage.is_ping_request).length .pingResponse)
  | [], sent => by simp [try_read]
  | .pingRequest :: incoming, sent => by
    rw [try_read]
    simp only [if_pos trivial]
    rw [try_read_ping_on incoming (sent ++ [EspHomeMessage.pingResponse])]
    simp [List.dropWhile, List.takeWhile, EspHomeMessage.is_ping_request,
      List.replicate_succ]
  | .pingResponse :: incoming, sent => by
    simp [try_read, List.dropWhile, List.takeWhile, EspHomeMessage.is_ping_request]
  | .other t b :: incoming, sent => by
    simp [try_read, List.dropWhile, List.takeWhile, EspHomeMessage.is_ping_request]

theorem head_dropWhile_not_ping :
    ∀ (l : List EspHomeMessage) (sent : List EspHomeMessage),
      returns_ping ((l.dropWhile EspHomeMessage.is_ping_request).head?, sent) = false
  | [], sent => rfl
  | .pingRequest :: l, sent => by
    simpa [List.dropWhile, EspHomeMessage.is_ping_request]
      using head_dropWhile_not_ping l sent
  | .pingResponse :: l, sent => by
    simp [List.dropWhile, EspHomeMessage.is_ping_request, returns_ping]
  | .other t b :: l, sent => by
    simp [List.dropWhile, EspHomeMessage.is_ping_request, returns_ping]

/-! ### Canonical payload encoding -/

theorem shiftRight_8_eq_div (n : Nat) : n >>> 8 = n / 256 := by
  rw [Nat.shiftRight_eq_div_pow]

theorem u16_be_bytes_value {n : Nat} (h : n < 65536) :
    u16_from_be_bytes ((n >>> 8) % 256) (n % 256) = n := by
  unfold u16_from_be_bytes
  rw [shiftRight_8_eq_div]
  omega

theorem create_frame_of_canonical (tid : Nat) (body : List Nat) (htid : tid < 65536)
    (hlen : body.length ≤ 65535) :
    Plain.create_frame (u16_to_be_bytes tid ++ u16_to_be_bytes body.length ++ body)
      = .ok (PLAIN_PREAMBLE ::
          (convert_to_leb128 body.length ++ (convert_to_leb128 tid ++ body))) := by
  unfold Plain.create_frame
  rw [if_neg (by simp [u16_to_be_bytes])]
  simp only [u16_to_be_bytes, List.cons_append, List.nil_append, List.getD_cons_zero,
    List.getD_cons_succ]
  rw [u16_be_bytes_value htid, u16_be_bytes_value (show body.length < 65536 by omega)]
  have hdrop : List.drop 4
      (tid >>> 8 % 256 :: tid % 256 :: body.length >>> 8 % 256 :: body.length % 256 :: body)
      = body := rfl
  rw [hdrop, List.append_assoc]

/-! ### Claim theorems -/

/-- C1: the claim says both frame decoders return "not ready" without panicking
whenever the buffer holds fewer bytes than one complete frame; in the Noise
decoder this fails. The buffer `[0x01, 0x00, 0x01]` announces a 1-byte payload
and is 3 bytes long, shorter than the 3-byte header plus that payload, yet
`read_frame_from_buffer` reaches `buffer.drain(..frame_len + 3)` with a range
end of 4 on a 3-byte buffer, which panics, because its completeness check
compares against `frame_len` instead of `frame_len + 3`. -/
theorem C1_noise_incomplete_frame_panics :
    u16_from_be_bytes 0 1 = 1
    ∧ ([1, 0, 1] : List Nat).length < 3 + u16_from_be_bytes 0 1
    ∧ Noise.read_frame_from_buffer [1, 0, 1] = NoiseDecodeResult.panic :=
  ⟨rfl, by decide, rfl⟩

/-- C2 counterexample: a buffer whose length varint accumulates more than 16
bits of shift (three continuation bytes, shift reaching 21) makes plaintext
decoding return `Ok(None)` with the buffer untouched — it is reported as an
incomplete frame, not as a malformed-frame error as the claim states. -/
theorem C2_counterexample :
    convert_from_leb128 [0, 128, 128, 128, 1] 1 = none
    ∧ Plain.read_frame_from_buffer [0, 128, 128, 128, 1]
        = (.ok none, [0, 128, 128, 128, 1]) :=
  ⟨rfl, rfl⟩

/-- A buffer whose length varint (right after the preamble) carries three
continuation bytes is reported as incomplete by the plaintext decoder. -/
theorem overlong_length_varint_incomplete (b1 b2 b3 : Nat) (rest : List Nat)
    (h1 : 128 ≤ b1) (h1' : b1 < 256) (h2 : 128 ≤ b2) (h2' : b2 < 256)
    (h3 : 128 ≤ b3) (h3' : b3 < 256) :
    convert_from_leb128 (PLAIN_PREAMBLE :: b1 :: b2 :: b3 :: rest) 1 = none
    ∧ Plain.read_frame_from_buffer (PLAIN_PREAMBLE :: b1 :: b2 :: b3 :: rest)
        = (.ok none, PLAIN_PREAMBLE :: b1 :: b2 :: b3 :: rest) := by
  have hvarint : convert_from_leb128 (PLAIN_PREAMBLE :: b1 :: b2 :: b3 :: rest) 1 = none := by
    unfold convert_from_leb128
    rw [List.drop_succ_cons, List.drop_zero]
    exact from_leb128_loop_overlong rest 1 0 h1 h1' h2 h2' h3 h3'
  refine ⟨hvarint, ?_⟩
  unfold Plain.read_frame_from_buffer
  rw [if_neg (by simp), List.getD_cons_zero, if_pos rfl, hvarint]

/-- A buffer holding a well-formed length varint followed by a type-id varint
with three continuation bytes is reported as incomplete by the plaintext
decoder (the `let Some(..) else return Ok(None)` path for the second varint,
plain.rs lines 88-90). -/
theorem overlong_type_varint_incomplete (len b1 b2 b3 : Nat) (rest : List Nat)
    (hlen : len < 65536)
    (h1 : 128 ≤ b1) (h1' : b1 < 256) (h2 : 128 ≤ b2) (h2' : b2 < 256)
    (h3 : 128 ≤ b3) (h3' : b3 < 256) :
    convert_from_leb128 (PLAIN_PREAMBLE :: (convert_to_leb128 len ++ (b1 :: b2 :: b3 :: rest)))
        (1 + (convert_to_leb128 len).length) = none
    ∧ Plain.read_frame_from_buffer
        (PLAIN_PREAMBLE :: (convert_to_leb128 len ++ (b1 :: b2 :: b3 :: rest)))
        = (.ok none, PLAIN_PREAMBLE :: (convert_to_leb128 len ++ (b1 :: b2 :: b3 :: rest))) := by
  have hlv1 := convert_to_leb128_length_pos len
  have hvarint1 : convert_from_leb128
      (PLAIN_PREAMBLE :: (convert_to_leb128 len ++ (b1 :: b2 :: b3 :: rest))) 1
      = some (len, 1 + (convert_to_leb128 len).length) := by
    simpa using convert_from_leb128_encode [PLAIN_PREAMBLE] hlen (b1 :: b2 :: b3 :: rest)
  have hvarint2 : convert_from_leb128
      (PLAIN_PREAMBLE :: (convert_to_leb128 len ++ (b1 :: b2 :: b3 :: rest)))
      (1 + (convert_to_leb128 len).length) = none := by
    unfold convert_from_leb128
    rw [Nat.add_comm 1 (convert_to_leb128 len).length, List.drop_succ_cons, List.drop_left]
    exact from_leb128_loop_overlong rest ((convert_to_leb128 len).length + 1) 0
      h1 h1' h2 h2' h3 h3'
  refine ⟨hvarint2, ?_⟩
  have hlen3 : ¬((PLAIN_PREAMBLE ::
      (convert_to_leb128 len ++ (b1 :: b2 :: b3 :: rest))).length < 3) := by
    simp only [List.length_cons, List.length_append]
    omega
  simp only [Plain.read_frame_from_buffer, List.getD_cons_zero, hvarint1, hvarint2,
    if_neg hlen3, eq_self_iff_true, if_true]

/-- C2 amended: for every buffer whose LEB128 varint — for the length or for
the type id — carries three continuation bytes (shift reaches 21 > 16 bits),
`convert_from_leb128` returns `None` and the plaintext decoder reports the
frame as incomplete (`Ok(None)`, buffer unchanged) rather than failing with a
malformed-frame error or succeeding. -/
theorem C2_overlong_varint_reports_incomplete :
    (∀ (b1 b2 b3 : Nat) (rest : List Nat),
      128 ≤ b1 → b1 < 256 → 128 ≤ b2 → b2 < 256 → 128 ≤ b3 → b3 < 256 →
      convert_from_leb128 (PLAIN_PREAMBLE :: b1 :: b2 :: b3 :: rest) 1 = none
      ∧ Plain.read_frame_from_buffer (PLAIN_PREAMBLE :: b1 :: b2 :: b3 :: rest)
          = (.ok none, PLAIN_PREAMBLE :: b1 :: b2 :: b3 :: rest))
    ∧ (∀ (len b1 b2 b3 : Nat) (rest : List Nat),
      len < 65536 →
      128 ≤ b1 → b1 < 256 → 128 ≤ b2 → b2 < 256 → 128 ≤ b3 → b3 < 256 →
      convert_from_leb128
          (PLAIN_PREAMBLE :: (convert_to_leb128 len ++ (b1 :: b2 :: b3 :: rest)))
          (1 + (convert_to_leb128 len).length) = none
      ∧ Plain.read_frame_from_buffer
          (PLAIN_PREAMBLE :: (convert_to_leb128 len ++ (b1 :: b2 :: b3 :: rest)))
          = (.ok none,
             PLAIN_PREAMBLE :: (convert_to_leb128 len ++ (b1 :: b2 :: b3 :: rest)))) :=
  ⟨overlong_length_varint_incomplete, overlong_type_varint_incomplete⟩

/-- C2 witness: the amended statement at the concrete buffers
`[0x00, 0x81, 0x82, 0x83, 0x07]` (overlong length varint) and
`[0x00, 0x05, 0x81, 0x82, 0x83]` (valid length varint 5, overlong type-id
varint). -/
theorem C2_overlong_varint_witness :
    (convert_from_leb128 (PLAIN_PREAMBLE :: 129 :: 130 :: 131 :: [7]) 1 = none
      ∧ Plain.read_frame_from_buffer (PLAIN_PREAMBLE :: 129 :: 130 :: 131 :: [7])
          = (.ok none, PLAIN_PREAMBLE :: 129 :: 130 :: 131 :: [7]))
    ∧ (convert_from_leb128
          (PLAIN_PREAMBLE :: (convert_to_leb128 5 ++ (129 :: 130 :: 131 :: [])))
          (1 + (convert_to_leb128 5).length) = none
      ∧ Plain.read_frame_from_buffer
          (PLAIN_PREAMBLE :: (convert_to_leb128 5 ++ (129 :: 130 :: 131 :: [])))
          = (.ok none,
             PLAIN_PREAMBLE :: (convert_to_leb128 5 ++ (129 :: 130 :: 131 :: [])))) :=
  ⟨C2_overlong_varint_reports_incomplete.1 129 130 131 [7] (by norm_num) (by norm_num)
      (by norm_num) (by norm_num) (by norm_num) (by norm_num),
   C2_overlong_varint_reports_incomplete.2 5 129 130 131 [] (by norm_num) (by norm_num)
      (by norm_num) (by norm_num) (by norm_num) (by norm_num) (by norm_num)⟩

/-- C3 counterexample: the frame `[0x00, 0x06, 0xB4, 0x24, 1..6]` holds a
preamble byte, a 1-byte length varint (6), a 2-byte type-id varint (0x1234)
and a 6-byte body, 10 bytes in all. Decoding returns the canonical frame and
leaves the buffer empty: all 10 bytes are drained, while the claim predicts
draining only `varint1 + varint2 + length = 1 + 2 + 6 = 9` bytes (it omits the
preamble byte). -/
theorem C3_counterexample :
    Plain.read_frame_from_buffer [0, 6, 180, 36, 1, 2, 3, 4, 5, 6]
      = (.ok (some [18, 52, 0, 6, 1, 2, 3, 4, 5, 6]), [])
    ∧ ([0, 6, 180, 36, 1, 2, 3, 4, 5, 6] : List Nat).length ≠ 1 + 2 + 6 :=
  ⟨rfl, by decide⟩

/-- C3 amended: when the plaintext decoder completes a frame from a buffer
holding the preamble byte, the length varint, the type-id varint and a body of
`length` bytes (plus any suffix), it drains exactly
`1 + varint1 + varint2 + length` bytes — the preamble byte included — and
returns the canonical form `BE_u16(type_id) ‖ BE_u16(length) ‖ body`. -/
theorem C3_decode_drains_whole_frame (tid : Nat) (body rest : List Nat)
    (htid : tid < 65536) (hlen : body.length ≤ 65535) :
    Plain.read_frame_from_buffer
        (PLAIN_PREAMBLE ::
          (convert_to_leb128 body.length ++ (convert_to_leb128 tid ++ (body ++ rest))))
      = (.ok (some (u16_to_be_bytes tid ++ u16_to_be_bytes body.length ++ body)), rest)
    ∧ (PLAIN_PREAMBLE ::
        (convert_to_leb128 body.length ++ (convert_to_leb128 tid ++ (body ++ rest)))).length
      = (1 + (convert_to_leb128 body.length).length + (convert_to_leb128 tid).length
          + body.length) + rest.length := by
  refine ⟨read_frame_of_encoded tid body rest htid hlen, ?_⟩
  simp only [List.length_cons, List.length_append]
  omega

/-- C3 witness: the amended statement at `type_id = 0x1234`, a 6-byte body and
a 1-byte suffix. -/
theorem C3_decode_drains_witness :
    Plain.read_frame_from_buffer
        (PLAIN_PREAMBLE ::
          (convert_to_leb128 ([1, 2, 3, 4, 5, 6] : List Nat).length
            ++ (convert_to_leb128 4660 ++ ([1, 2, 3, 4, 5, 6] ++ [9]))))
      = (.ok (some (u16_to_be_bytes 4660
          ++ u16_to_be_bytes ([1, 2, 3, 4, 5, 6] : List Nat).length
          ++ [1, 2, 3, 4, 5, 6])), [9])
    ∧ (PLAIN_PREAMBLE ::
        (convert_to_leb128 ([1, 2, 3, 4, 5, 6] : List Nat).length
          ++ (convert_to_leb128 4660 ++ ([1, 2, 3, 4, 5, 6] ++ [9])))).length
      = (1 + (convert_to_leb128 ([1, 2, 3, 4, 5, 6] : List Nat).length).length
          + (convert_to_leb128 4660).length + ([1, 2, 3, 4, 5, 6] : List Nat).length)
        + ([9] : List Nat).length :=
  C3_decode_drains_whole_frame 4660 [1, 2, 3, 4, 5, 6] [9] (by norm_num) (by decide)

/-- C4: plain frame round-trip. For every `type_id < 2 ^ 16` and every byte
body of at most 65535 bytes, encoding the canonical payload
`BE_u16(type_id) ‖ BE_u16(len) ‖ body` yields the frame
`0x00 ‖ leb128(len) ‖ leb128(type_id) ‖ body`, and decoding that frame gives
back exactly the canonical payload with an empty buffer. -/
theorem C4_plain_frame_roundtrip (tid : Nat) (body : List Nat) (htid : tid < 65536)
    (hlen : body.length ≤ 65535) (hbytes : ∀ b ∈ body, b < 256) :
    Plain.create_frame (u16_to_be_bytes tid ++ u16_to_be_bytes body.length ++ body)
      = .ok (PLAIN_PREAMBLE ::
          (convert_to_leb128 body.length ++ (convert_to_leb128 tid ++ body)))
    ∧ Plain.read_frame_from_buffer
        (PLAIN_PREAMBLE :: (convert_to_leb128 body.length ++ (convert_to_leb128 tid ++ body)))
      = (.ok (some (u16_to_be_bytes tid ++ u16_to_be_bytes body.length ++ body)), []) := by
  refine ⟨create_frame_of_canonical tid body htid hlen, ?_⟩
  have h := read_frame_of_encoded tid body [] htid hlen
  simpa using h

/-- C4 witness: the round-trip at `type_id = 0x1234` and body `[1..6]`. -/
theorem C4_plain_frame_roundtrip_witness :
    Plain.create_frame (u16_to_be_bytes 4660 ++ u16_to_be_bytes 6 ++ [1, 2, 3, 4, 5, 6])
      = .ok (PLAIN_PREAMBLE :: (convert_to_leb128 6 ++ (convert_to_leb128 4660 ++ [1, 2, 3, 4, 5, 6])))
    ∧ Plain.read_frame_from_buffer
        (PLAIN_PREAMBLE :: (convert_to_leb128 6 ++ (convert_to_leb128 4660 ++ [1, 2, 3, 4, 5, 6])))
      = (.ok (some (u16_to_be_bytes 4660 ++ u16_to_be_bytes 6 ++ [1, 2, 3, 4, 5, 6])), []) :=
  C4_plain_frame_roundtrip 4660 [1, 2, 3, 4, 5, 6] (by norm_num) (by decide) (by decide)

/-- C5: `StreamReader::read_next_message` returns an error only for socket
I/O failures (readiness or read errors): running the reader with any decoder
is indistinguishable from running it with the same decoder whose `Err` results
are replaced by `Ok(None)` — decode errors are silently discarded and the
reader keeps waiting — and every returned failure is a `StreamError::Read`. -/
theorem C5_reader_discards_decode_errors (decode : Decoder) (buffer : List Nat)
    (events : List ReadyEvent) :
    read_next_message decode buffer events
        = read_next_message (suppress_decode_errors decode) buffer events
    ∧ (read_next_message decode buffer events).is_fail
        = (read_next_message decode buffer events).is_socket_read_fail := by
  constructor
  · unfold read_next_message suppress_decode_errors
    rcases h : decode buffer with ⟨res, buffer2⟩
    rcases res with e | od
    · simp only
      exact read_loop_suppress decode events buffer2
    · rcases od with _ | d
      · simp only
        exact read_loop_suppress decode events buffer2
      · simp only
  · unfold read_next_message
    rcases h : decode buffer with ⟨res, buffer2⟩
    rcases res with e | od
    · simp only
      exact read_loop_fail_is_socket decode events buffer2
    · rcases od with _ | d
      · simp only
        exact read_loop_fail_is_socket decode events buffer2
      · simp only
        rfl

/-- C6: while `handle_ping` is true, `try_read` answers every decoded
`PingRequest` with exactly one `PingResponse` and keeps reading: it returns
the first non-ping message unchanged (none if the trace ends first), the sent
messages are one `PingResponse` per consumed `PingRequest`, and the returned
message is never a `PingRequest`. -/
theorem C6_try_read_handles_ping (incoming : List EspHomeMessage) :
    try_read true [] incoming
        = ((incoming.dropWhile EspHomeMessage.is_ping_request).head?,
           List.replicate
             (incoming.takeWhile EspHomeMessage.is_ping_request).length .pingResponse)
    ∧ returns_ping (try_read true [] incoming) = false := by
  have h := try_read_ping_on incoming []
  simp only [List.nil_append] at h
  refine ⟨h, ?_⟩
  rw [h]
  exact head_dropWhile_not_ping incoming _

/-- C7: PSK validation in the Noise connect path. A base64 decode error
becomes `InvalidKey` carrying that error; a decoded key whose length is not
exactly 32 becomes `InvalidKey { reason: "Invalid PSK length" }`; a decoded
key of exactly 32 bytes passes validation. -/
theorem C7_psk_validation (decoded_key : Except String (List Nat)) :
    (∀ e, decoded_key = .error e →
        Noise.create_noise_client decoded_key = .error (.invalidKey e))
    ∧ (∀ key_bytes, decoded_key = .ok key_bytes → key_bytes.length ≠ 32 →
        Noise.create_noise_client decoded_key = .error (.invalidKey "Invalid PSK length"))
    ∧ (∀ key_bytes, decoded_key = .ok key_bytes → key_bytes.length = 32 →
        Noise.create_noise_client decoded_key = .ok key_bytes) := by
  refine ⟨?_, ?_, ?_⟩
  · intro e he
    subst he
    rfl
  · intro key_bytes hk hlen
    subst hk
    simp [Noise.create_noise_client, hlen]
  · intro key_bytes hk hlen
    subst hk
    simp [Noise.create_noise_client, hlen]

/-- C7 witness: sixteen zero bytes are rejected with "Invalid PSK length", a
base64 error is wrapped into `InvalidKey`, and a 32-byte key passes. -/
theorem C7_psk_validation_witness :
    Noise.create_noise_client (.ok (List.replicate 16 0))
        = .error (.invalidKey "Invalid PSK length")
    ∧ Noise.create_noise_client (.error "Invalid padding")
        = .error (.invalidKey "Invalid padding")
    ∧ Noise.create_noise_client (.ok (List.replicate 32 1))
        = .ok (List.replicate 32 1) :=
  ⟨(C7_psk_validation (.ok (List.replicate 16 0))).2.1 _ rfl (by decide),
   (C7_psk_validation (.error "Invalid padding")).1 _ rfl,
   (C7_psk_validation (.ok (List.replicate 32 1))).2.2 _ rfl (by decide)⟩

/-- C8: LEB128 codec correctness. For every `v ≤ 65535`, decoding the encoding
of `v` from position 0 returns `some (v, encoded length)`; and the boundary
encodings are `127 ↦ [0x7F]`, `128 ↦ [0x80, 0x01]`, `16384 ↦ [0x80, 0x80, 0x01]`,
`65535 ↦ [0xFF, 0xFF, 0x03]`. -/
theorem C8_leb128_roundtrip (v : Nat) (h : v ≤ 65535) :
    convert_from_leb128 (convert_to_leb128 v) 0 = some (v, (convert_to_leb128 v).length)
    ∧ convert_to_leb128 127 = [0x7F]
    ∧ convert_to_leb128 128 = [0x80, 0x01]
    ∧ convert_to_leb128 16384 = [0x80, 0x80, 0x01]
    ∧ convert_to_leb128 65535 = [0xFF, 0xFF, 0x03] := by
  refine ⟨?_, ?_, ?_, ?_, ?_⟩
  · have h2 := from_to_leb128 (show v < 65536 by omega) 0 ([] : List Nat)
    simp only [List.append_nil, Nat.zero_add] at h2
    unfold convert_from_leb128
    rw [List.drop_zero]
    exact h2
  · rw [convert_to_leb128_one (by norm_num)]
  · rw [convert_to_leb128_two (by norm_num) (by norm_num)]
  · rw [convert_to_leb128_three (by norm_num) (by norm_num)]
  · rw [convert_to_leb128_three (by norm_num) (by norm_num)]

/-- C8 witness: the round-trip statement applied at `v = 300`. -/
theorem C8_leb128_roundtrip_witness :
    (300 : Nat) ≤ 65535
    ∧ (convert_from_leb128 (convert_to_leb128 300) 0
          = some (300, (convert_to_leb128 300).length)
        ∧ convert_to_leb128 127 = [0x7F]
        ∧ convert_to_leb128 128 = [0x80, 0x01]
        ∧ convert_to_leb128 16384 = [0x80, 0x80, 0x01]
        ∧ convert_to_leb128 65535 = [0xFF, 0xFF, 0x03]) :=
  ⟨by norm_num, C8_leb128_roundtrip 300 (by norm_num)⟩

/-- C9 counterexample: in `[0x00, 0xFF, 0xFF, 0x7F, 0x00]` the length varint
bytes `FF FF 7F` denote `127 + 127·128 + 127·16384 = 2097151 > 65535`, yet the
decoder does not fail with a frame-too-large error: `convert_from_leb128`
truncates the value to the low 16 bits (`65535`) and the frame is reported as
incomplete. -/
theorem C9_counterexample :
    (127 + 127 * 128 + 127 * 16384 : Nat) > 65535
    ∧ convert_from_leb128 [0, 255, 255, 127, 0] 1 = some (65535, 4)
    ∧ Plain.read_frame_from_buffer [0, 255, 255, 127, 0]
        = (.ok none, [0, 255, 255, 127, 0]) :=
  ⟨by norm_num, rfl, rfl⟩

/-- C9 amended: the LEB128 decoder computes into a `u16`, discarding shifted
bits above bit 15, so every decoded length is at most 65535 and the
frame-too-large branch of the plaintext decoder is unreachable: no buffer
makes `read_frame_from_buffer` return `FrameTooLarge`. -/
theorem C9_frame_too_large_unreachable :
    (∀ (payload : List Nat) (start v i : Nat),
        convert_from_leb128 payload start = some (v, i) → v ≤ 65535)
    ∧ ∀ buffer : List Nat,
        is_frame_too_large (Plain.read_frame_from_buffer buffer).fst = false :=
  ⟨fun _ _ _ _ h => convert_from_leb128_bound h, read_frame_never_too_large⟩

/-- C9 witness: the bound applied at the decode of `[0x05]` and the
no-frame-too-large statement at the counterexample buffer. -/
theorem C9_frame_too_large_witness :
    (5 : Nat) ≤ 65535
    ∧ is_frame_too_large (Plain.read_frame_from_buffer [0, 255, 255, 127, 0]).fst = false :=
  ⟨C9_frame_too_large_unreachable.1 [5] 0 5 1 rfl,
   C9_frame_too_large_unreachable.2 [0, 255, 255, 127, 0]⟩

/-- C10: the plaintext encoder rejects every payload shorter than 4 bytes with
`InvalidFrame { reason: "Payload must be at least 4 bytes long" }` and
succeeds on every payload of at least 4 bytes. -/
theorem C10_create_frame_length_check (payload : List Nat) :
    (payload.length < 4 →
      Plain.create_frame payload
        = .error (.stream (.invalidFrame "Payload must be at least 4 bytes long")))
    ∧ (4 ≤ payload.length → ∃ frame, Plain.create_frame payload = .ok frame) := by
  constructor
  · intro h
    unfold Plain.create_frame
    rw [if_pos h]
  · intro h
    unfold Plain.create_frame
    rw [if_neg (by omega)]
    exact ⟨_, rfl⟩

/-- C10 witness: `encode([1,2,3])` fails with the invalid-frame reason and
`encode([1,2,3,4])` succeeds. -/
theorem C10_create_frame_length_witness :
    Plain.create_frame [1, 2, 3]
        = .error (.stream (.invalidFrame "Payload must be at least 4 bytes long"))
    ∧ ∃ frame, Plain.create_frame [1, 2, 3, 4] = .ok frame :=
  ⟨(C10_create_frame_length_check [1, 2, 3]).1 (by norm_num),
   (C10_create_frame_length_check [1, 2, 3, 4]).2 (by norm_num)⟩

end EsphomeClient
